import Mathlib

/-!
Verification of the `ros_spinnaker_interface` repository.

This file gives a shallow embedding of the transfer-function policies
(`ros_spinnaker_interface/transfer_functions.py`) and of the Poisson-rate
conductor (`ros_spinnaker_interface/ros_spinnaker_poisson_rate_interface.py`),
and proves properties of those definitions.

Modelling conventions:
* Python `None` is `Option.none`; a fallible operation returns `Option`.
* ROS `Int64` message values are `ℤ`; float arithmetic of the sink policies
  is modelled over `ℚ` (exact arithmetic), the convolution buffer and the
  Poisson draw (which use `exp`/`log`) over `ℝ`.
* `random.expovariate` is modelled by its CPython definition
  `-log(1.0 - random()) / lambd`, parameterised by the uniform sample `u`.
* The `multiprocessing.Queue` of the conductor is modelled as the FIFO list
  of values that have been `put` but not yet `get`.
-/

namespace RosSpinnakerInterface

/-- A neuron as documented in `transfer_functions.py`: a key (= ID) and the
list of times (ms since simulation start) at which it spiked. -/
structure Neuron where
  key : ℕ
  spike_times : List ℤ
deriving DecidableEq

/-! ### Spike sources (`transfer_functions.py`) -/

namespace SpikeSourceConstantRate

/-- `SpikeSourceConstantRate.on_update` (transfer_functions.py:110-115):
`if ros_value is None or ros_value <= 0: return None`, else
`rate = ros_value; return rate`.  ROS values are `Int64`, hence `ℤ`. -/
def on_update (ros_value : Option ℤ) (neuron : ℕ) (n_neurons : ℕ) : Option ℤ :=
  match ros_value with
  | none => none
  | some v => if v ≤ 0 then none else some v

end SpikeSourceConstantRate

namespace SpikeSourceNumNeurons

/-- `SpikeSourceNumNeurons.on_update` (transfer_functions.py:152-155):
`number_neurons, rate = (ros_value, 1000) if ros_value is not None else (0, None)`
then `interval = rate if 0 < neuron + 1 <= number_neurons else None`. -/
def on_update (ros_value : Option ℤ) (neuron : ℕ) (n_neurons : ℕ) : Option ℤ :=
  let p : ℤ × Option ℤ :=
    match ros_value with
    | some v => (v, some 1000)
    | none => (0, none)
  if 0 < (neuron : ℤ) + 1 ∧ (neuron : ℤ) + 1 ≤ p.1 then p.2 else none

end SpikeSourceNumNeurons

/-- Python `int()` applied to a real: truncation toward zero. -/
noncomputable def pyInt (x : ℝ) : ℤ :=
  if 0 ≤ x then ⌊x⌋ else -⌊-x⌋

/-- CPython `random.expovariate(lambd)`: `-log(1.0 - random()) / lambd`,
with the uniform sample `random()` made an explicit parameter `u`. -/
noncomputable def expovariate (lambd : ℝ) (u : ℝ) : ℝ :=
  -Real.log (1 - u) / lambd

namespace SpikeSourcePoisson

/-- `SpikeSourcePoisson.on_update` (transfer_functions.py:127-136):
`if ros_value is None or ros_value <= 0: return None`, else
`interval = int(random.expovariate(1.0 / lambd))` with `lambd = ros_value`.
The uniform sample `u` consumed by `expovariate` is an explicit parameter;
the bookkeeping append to `self.intervals` (used only for plotting) is not
part of the returned value. -/
noncomputable def on_update (ros_value : Option ℝ) (neuron : ℕ) (n_neurons : ℕ)
    (u : ℝ) : Option ℤ :=
  match ros_value with
  | none => none
  | some v => if v ≤ 0 then none else some (pyInt (expovariate (1 / v) u))

end SpikeSourcePoisson

/-! ### Spike sinks (`transfer_functions.py`) -/

namespace SpikeSinkSpikesPerWindow

/-- `SpikeSinkSpikesPerWindow.on_spike` (transfer_functions.py:163-164):
the body is `pass`, so the Python method returns `None`. -/
def on_spike (spike_time : ℤ) (neuron_id : ℕ) (curr_ros_value : Option ℚ) :
    Option ℚ :=
  none

/-- `SpikeSinkSpikesPerWindow.on_update` (transfer_functions.py:166-176):
`time_window = 100`; for every neuron add
`sum(sim_time - time_window < spike_time for spike_time in neuron.spike_times)`
(a Python sum of booleans, i.e. of 0/1 values) into the accumulator. -/
def on_update (neurons : List Neuron) (sim_time : ℤ) (curr_ros_value : Option ℚ) :
    ℕ :=
  let time_window : ℤ := 100
  neurons.foldl
    (fun num_spikes_per_neuron neuron =>
      num_spikes_per_neuron +
        (neuron.spike_times.map
          (fun spike_time => if sim_time - time_window < spike_time then 1 else 0)).sum)
    0

end SpikeSinkSpikesPerWindow

namespace SpikeSinkSmoothing

/-- `SpikeSinkSmoothing.on_update_calling_rate = 10` (transfer_functions.py:185). -/
def on_update_calling_rate : ℕ := 10

/-- `SpikeSinkSmoothing.on_spike` (transfer_functions.py:188-191):
`new_ros_value = curr_ros_value + 1; return new_ros_value`.  (The append to
the plotting list `self.ros_values` does not affect the returned value.) -/
def on_spike (spike_time : ℤ) (neuron_id : ℕ) (curr_ros_value : ℚ) : ℚ :=
  curr_ros_value + 1

/-- `SpikeSinkSmoothing.on_update` (transfer_functions.py:193-196):
`new_ros_value = curr_ros_value * 0.95; return new_ros_value`. -/
def on_update (neurons : List Neuron) (sim_time : ℤ) (curr_ros_value : ℚ) : ℚ :=
  curr_ros_value * 0.95

/-- `k` consecutive `on_update` calls (with arbitrary neuron lists and
simulation times, which `on_update` ignores) starting from value `v`. -/
def updates (args : ℕ → List Neuron × ℤ) : ℕ → ℚ → ℚ
  | 0, v => v
  | k + 1, v => updates args k (on_update (args k).1 (args k).2 v)

end SpikeSinkSmoothing

/-- `np.convolve(a, b, "same")`, modelled on lists: entry `k` of the full
convolution is `∑ i, a_i * b_(k-i)`; mode `"same"` keeps the central
`max |a| |b|` entries of the full result, starting at index
`(min |a| |b| - 1) / 2`. -/
def convolveSame (a b : List ℝ) : List ℝ :=
  let full := (List.range (a.length + b.length - 1)).map
    (fun k => ∑ i ∈ Finset.range (k + 1), a.getD i 0 * b.getD (k - i) 0)
  (full.drop ((min a.length b.length - 1) / 2)).take (max a.length b.length)

namespace SpikeSinkConvolution

/-- `SpikeSinkConvolution.on_update_calling_rate = 10` (transfer_functions.py:245). -/
def on_update_calling_rate : ℕ := 10

/-- `SpikeSinkConvolution.spike_response` (transfer_functions.py:247):
`[i * np.exp(2 - i) for i in np.arange(0, 6, 0.1)]`, i.e. the 60 values
`f(j/10)` for `j = 0, …, 59` with `f x = x * exp (2 - x)`. -/
noncomputable def spike_response : List ℝ :=
  (List.range 60).map (fun j => (j / 10 : ℝ) * Real.exp (2 - j / 10))

/-- Initial `SpikeSinkConvolution.output` (transfer_functions.py:248):
`[1 for i in range(len(spike_response))]`. -/
noncomputable def output_init : List ℝ :=
  List.replicate spike_response.length 1

/-- `SpikeSinkConvolution.on_spike` (transfer_functions.py:251-252):
`self.output = np.convolve(self.output, self.spike_response, "same")` and the
method body has no `return`, so the Python method returns `None`.  The result
is the pair (new buffer, returned value). -/
noncomputable def on_spike (spike_time : ℤ) (neuron_id : ℕ)
    (curr_ros_value : Option ℝ) (output : List ℝ) : List ℝ × Option ℝ :=
  (convolveSame output spike_response, none)

/-- `SpikeSinkConvolution.on_update` (transfer_functions.py:254-259):
`new_ros_value, self.output = self.output[0], np.append(self.output[1:], 1)`.
Indexing `self.output[0]` raises on an empty buffer, hence `none` there.
The result is the pair (returned value, new buffer). -/
def on_update (neurons : List Neuron) (sim_time : ℤ) (curr_ros_value : Option ℝ)
    (output : List ℝ) : Option (ℝ × List ℝ) :=
  match output with
  | [] => none
  | x :: rest => some (x, rest ++ [1])

end SpikeSinkConvolution

/-! ### The Sink Engine contract (base `population` module)

The base classes `BasicSpikeSink`/`BasicSpikeSource` live in the repository's
`population` module, which is imported by `transfer_functions.py` but whose
source is not part of the reviewed tree; the engine contract is therefore
modelled from the specification. -/

/-- Sink-engine state: per-neuron spike histories and the current ROS output
value (`None` when absent), generic in the value type `V`. -/
structure SinkEngineState (V : Type) where
  histories : ℕ → List ℤ
  curr_ros_value : Option V

/-- Modelled from the spec: the Sink Engine's `on_spike_event` contract of the
missing base `population` module — "called once per observed spike, appends
the timestamp to that neuron's history, then invokes the Sink Policy's
`on_spike` with the current output value; the returned value becomes the new
current output". -/
def sink_on_spike_event {V : Type}
    (policy_on_spike : ℤ → ℕ → Option V → Option V)
    (s : SinkEngineState V) (spike_time : ℤ) (neuron_id : ℕ) :
    SinkEngineState V :=
  ⟨fun j => if j = neuron_id then s.histories j ++ [spike_time] else s.histories j,
   policy_on_spike spike_time neuron_id s.curr_ros_value⟩

/-! ### The Poisson-rate conductor (`ros_spinnaker_poisson_rate_interface.py`) -/

/-- The pending contents of the conductor's `multiprocessing.Queue`
(`self._queue_ros_poisson_rate`): the values `put` but not yet `get`,
oldest first.  `put` appends at the tail. -/
def queue_put {α : Type} (q : List α) (v : α) : List α :=
  q ++ [v]

/-- `Queue.get` on a FIFO queue: take the oldest pending value. -/
def queue_get {α : Type} : List α → Option α × List α
  | [] => (none, [])
  | v :: rest => (some v, rest)

/-- `_incoming_ros_poisson_rate_callback` (ros_spinnaker_poisson_rate_interface.py:151-157):
`self._queue_ros_poisson_rate.put(ros_msg.data)`. -/
def incoming_ros_poisson_rate_callback {α : Type} (q : List α) (ros_msg : α) :
    List α :=
  queue_put q ros_msg

/-- One iteration of the clock-loop body of `_run_ros_node`
(ros_spinnaker_poisson_rate_interface.py:142-149): if the queue is not empty,
`get` a message and forward it via `connection.set_rates`; otherwise do
nothing.  The result is the message forwarded this tick (if any) and the queue
afterwards. -/
def run_ros_node_step {α : Type} (q : List α) : Option α × List α :=
  if q.isEmpty then (none, q) else queue_get q

/-- The side effects of conductor construction and of its start-resume
callback, in program order. -/
inductive Effect where
  | add_poisson_live_rate_control (database_notify_port_num : ℕ)
  | mk_spynnaker_poisson_control_connection (local_port : ℕ)
  | add_start_resume_callback
  | create_worker_process
  | start_worker_process
  | print_started (interface_id : ℕ)
deriving DecidableEq

/-- The effects of `_ROS_Spinnaker_Poisson_Rate_Interface.__init__`
(ros_spinnaker_poisson_rate_interface.py:93-123) after the plain member
assignments: `add_poisson_live_rate_control(...)`, construction of the
`SpynnakerPoissonControlConnection` on the control port, and registration of
`self._poisson_rate_control_callback` as the start-resume callback.  No
process is created or started here. -/
def init_effects (interface_id : ℕ) : List Effect :=
  [Effect.add_poisson_live_rate_control (30000 + interface_id),
   Effect.mk_spynnaker_poisson_control_connection (30000 + interface_id),
   Effect.add_start_resume_callback]

/-- The effects of one invocation of `_poisson_rate_control_callback`
(ros_spinnaker_poisson_rate_interface.py:125-129): create the worker
`Process(target=self._run_ros_node, ...)`, print, `pr.start()`. -/
def poisson_rate_control_callback_effects (interface_id : ℕ) : List Effect :=
  [Effect.create_worker_process,
   Effect.print_started interface_id,
   Effect.start_worker_process]

/-- The identity-relevant state of one constructed interface instance. -/
structure InterfaceState where
  n_neurons : ℕ
  interface_id : ℕ
  poisson_rate_control_port : ℕ
deriving DecidableEq

/-- The identity-assigning part of `__init__`
(ros_spinnaker_poisson_rate_interface.py:103,110-111): with the class-level
`_instance_counter = count()` at value `counter`,
`self.n_neurons = n_neurons if n_neurons is not None else 1`,
`self.interface_id = next(self._instance_counter)` and
`self.poisson_rate_control_port = 30000 + self.interface_id`.
Returns the instance together with the advanced counter. -/
def mk_interface (n_neurons : Option ℕ) (counter : ℕ) : InterfaceState × ℕ :=
  (⟨n_neurons.getD 1, counter, 30000 + counter⟩, counter + 1)

/-- `k` sequential constructions starting from counter value `c`; returns the
instances in construction order and the final counter value. -/
def mk_interfaces : ℕ → ℕ → List InterfaceState × ℕ
  | 0, c => ([], c)
  | k + 1, c =>
    let r := mk_interface none c
    let rest := mk_interfaces k r.2
    (r.1 :: rest.1, rest.2)

/-! ### Helper lemmas -/

/-- A left fold that only adds contributions equals the starting accumulator
plus the sum of the contributions. -/
theorem foldl_add_sum (g : Neuron → ℕ) (l : List Neuron) (acc : ℕ) :
    l.foldl (fun a nr => a + g nr) acc = acc + (l.map g).sum := by
  induction l generalizing acc with
  | nil => simp
  | cons x xs ih => simp [List.foldl_cons, ih, add_assoc]

/-- A Python-style sum of booleans (encoded as 0/1) is a `countP`. -/
theorem sum_map_ite_eq_countP (p : ℤ → Prop) [DecidablePred p] (l : List ℤ) :
    (l.map (fun t => if p t then (1 : ℕ) else 0)).sum
      = l.countP (fun t => decide (p t)) := by
  induction l with
  | nil => rfl
  | cons x xs ih =>
    by_cases h : p x <;> simp [List.countP_cons, h, ih, Nat.add_comm]

theorem mk_interfaces_ids (k c : ℕ) :
    ((mk_interfaces k c).1.map InterfaceState.interface_id) = List.range' c k := by
  induction k generalizing c with
  | zero => rfl
  | succ k ih => simp [mk_interfaces, mk_interface, ih, List.range'_succ]

theorem mk_interfaces_ports (k c : ℕ) :
    ((mk_interfaces k c).1.map InterfaceState.poisson_rate_control_port)
      = List.range' (30000 + c) k := by
  induction k generalizing c with
  | zero => rfl
  | succ k ih =>
    simp [mk_interfaces, mk_interface, ih, List.range'_succ, Nat.add_assoc]

theorem mk_interfaces_counter (k c : ℕ) : (mk_interfaces k c).2 = c + k := by
  induction k generalizing c with
  | zero => rfl
  | succ k ih => simp [mk_interfaces, mk_interface, ih]; omega

theorem mk_interfaces_port_eq (k c : ℕ) :
    ∀ s ∈ (mk_interfaces k c).1,
      s.poisson_rate_control_port = 30000 + s.interface_id := by
  induction k generalizing c with
  | zero => intro s hs; exact absurd hs (List.not_mem_nil s)
  | succ k ih =>
    intro s hs
    have hs' : s = (mk_interface none c).1 ∨ s ∈ (mk_interfaces k (c + 1)).1 :=
      List.mem_cons.mp hs
    rcases hs' with rfl | hs'
    · rfl
    · exact ih (c + 1) s hs'

theorem expovariate_one_div (v u : ℝ) :
    expovariate (1 / v) u = v * -Real.log (1 - u) := by
  unfold expovariate
  rw [div_div_eq_mul_div, div_one]
  ring

/-- On `(0, 1)` the logarithm is dominated in norm by `2 * x ^ (-1/2)`. -/
theorem norm_log_le_on_Ioo {x : ℝ} (hx : x ∈ Set.Ioo (0 : ℝ) 1) :
    ‖Real.log x‖ ≤ ‖2 * x ^ (-(1 / 2) : ℝ)‖ := by
  have hx0 := hx.1
  have hx1 := hx.2
  have hy : (0 : ℝ) < x ^ (-(1 / 2) : ℝ) := Real.rpow_pos_of_pos hx0 _
  have hlogneg : Real.log x ≤ 0 := Real.log_nonpos hx0.le hx1.le
  rw [Real.norm_eq_abs, Real.norm_eq_abs, abs_of_nonpos hlogneg,
    abs_of_nonneg (by positivity)]
  have h2 : -Real.log x = 2 * Real.log (x ^ (-(1 / 2) : ℝ)) := by
    rw [Real.log_rpow hx0]; ring
  have h3 := Real.log_le_sub_one_of_pos hy
  rw [h2]
  nlinarith

/-- The logarithm is integrable on `(0, 1)` (despite the singularity at 0). -/
theorem integrableOn_log_Ioo :
    MeasureTheory.IntegrableOn Real.log (Set.Ioo 0 1) MeasureTheory.volume := by
  have hg : MeasureTheory.IntegrableOn (fun x : ℝ => 2 * x ^ (-(1 / 2) : ℝ))
      (Set.Ioo 0 1) MeasureTheory.volume := by
    have h : IntervalIntegrable (fun x : ℝ => x ^ (-(1 / 2) : ℝ))
        MeasureTheory.volume 0 1 :=
      intervalIntegral.intervalIntegrable_rpow' (by norm_num)
    rw [intervalIntegrable_iff_integrableOn_Ioo_of_le zero_le_one] at h
    exact h.const_mul 2
  refine MeasureTheory.Integrable.mono hg
    Real.measurable_log.aestronglyMeasurable ?_
  rw [MeasureTheory.ae_restrict_iff' measurableSet_Ioo]
  filter_upwards with x hx
  exact norm_log_le_on_Ioo hx

theorem intervalIntegrable_log_zero_one :
    IntervalIntegrable Real.log MeasureTheory.volume 0 1 := by
  rw [intervalIntegrable_iff_integrableOn_Ioo_of_le zero_le_one]
  exact integrableOn_log_Ioo

/-- `∫ x in 0..1, log x = -1`, via the antiderivative `x * log x - x`
(continuous up to the endpoint 0). -/
theorem integral_log_zero_one : ∫ x in (0 : ℝ)..1, Real.log x = -1 := by
  have hcont : ContinuousOn (fun x : ℝ => x * Real.log x - x) (Set.Icc 0 1) :=
    (Real.continuous_mul_log.sub continuous_id).continuousOn
  have hderiv : ∀ x ∈ Set.Ioo (0 : ℝ) 1,
      HasDerivWithinAt (fun x : ℝ => x * Real.log x - x) (Real.log x)
        (Set.Ioi x) x := by
    intro x hx
    have h := (Real.hasDerivAt_mul_log hx.1.ne').sub (hasDerivAt_id x)
    have h' : HasDerivAt (fun x : ℝ => x * Real.log x - x) (Real.log x) x := by
      simpa using h
    exact h'.hasDerivWithinAt
  have h := intervalIntegral.integral_eq_sub_of_hasDeriv_right_of_le
    zero_le_one hcont hderiv intervalIntegrable_log_zero_one
  simpa [Real.log_one] using h

/-- `∫ u in 0..1, -log (1 - u) = 1`. -/
theorem integral_neg_log_one_sub :
    ∫ u in (0 : ℝ)..1, -Real.log (1 - u) = 1 := by
  rw [intervalIntegral.integral_neg, intervalIntegral.integral_comp_sub_left
    Real.log 1]
  norm_num [integral_log_zero_one]

/-- The mean of the code's draw `expovariate (1/v)` over the uniform sample
is `v`. -/
theorem expovariate_mean (v : ℝ) (hv : 0 < v) :
    ∫ u in (0 : ℝ)..1, expovariate (1 / v) u = v := by
  have h : ∀ u : ℝ, expovariate (1 / v) u = v * -Real.log (1 - u) :=
    fun u => expovariate_one_div v u
  simp only [h]
  rw [intervalIntegral.integral_const_mul, integral_neg_log_one_sub, mul_one]

/-- The draw `expovariate (1/v)` applied to a uniform sample `u < 1` satisfies
the CDF of the exponential distribution with rate `1/v` (mean `v`):
`draw ≤ x` exactly when `u ≤ 1 - exp (-x / v)`. -/
theorem expovariate_cdf (v u x : ℝ) (hv : 0 < v) (hu : u < 1) :
    expovariate (1 / v) u ≤ x ↔ u ≤ 1 - Real.exp (-x / v) := by
  have h1u : (0 : ℝ) < 1 - u := by linarith
  rw [expovariate_one_div, mul_comm, ← le_div_iff₀ hv, neg_le,
    Real.le_log_iff_exp_le h1u, neg_div]
  constructor <;> intro h <;> linarith

/-! ### The claims -/

/-- Claim C3: `SpikeSinkSpikesPerWindow.on_update` returns the total number of
recorded spike times `t` over all neurons with `sim_time - 100 < t`; for a
single neuron with history {10, 50, 150, 205} at `sim_time = 200` it returns
exactly 2. -/
theorem spikes_per_window_count (neurons : List Neuron) (sim_time : ℤ)
    (curr : Option ℚ) :
    SpikeSinkSpikesPerWindow.on_update neurons sim_time curr
      = (neurons.map
          (fun nr => nr.spike_times.countP (fun t => decide (sim_time - 100 < t)))).sum
  ∧ SpikeSinkSpikesPerWindow.on_update [⟨1, [10, 50, 150, 205]⟩] 200 none = 2 := by
  constructor
  · unfold SpikeSinkSpikesPerWindow.on_update
    rw [foldl_add_sum]
    simp [sum_map_ite_eq_countP (fun t => sim_time - 100 < t)]
  · decide

/-- Claim C4: starting from any output value `v₀`, `k` consecutive
`SpikeSinkSmoothing.on_update` calls (no intervening `on_spike`) yield
`v₀ * 0.95 ^ k`, and a single `on_spike` returns the current output plus 1,
for every spike time and neuron id. -/
theorem smoothing_decay_and_increment (args : ℕ → List Neuron × ℤ) (k : ℕ)
    (v₀ : ℚ) (t : ℤ) (i : ℕ) (v : ℚ) :
    SpikeSinkSmoothing.updates args k v₀ = v₀ * 0.95 ^ k
  ∧ SpikeSinkSmoothing.on_spike t i v = v + 1 := by
  constructor
  · induction k generalizing v₀ with
    | zero => simp [SpikeSinkSmoothing.updates]
    | succ k ih =>
      rw [SpikeSinkSmoothing.updates, ih]
      simp only [SpikeSinkSmoothing.on_update]
      ring
  · rfl

/-- Claim C5: a `SpikeSinkConvolution.on_update` on a nonempty buffer returns
the buffer's head, the new buffer is the old tail with the neutral value 1
appended (so the length is invariant), and the buffer sum changes exactly by
the pushed 1 minus the popped head. -/
theorem convolution_buffer_fifo (neurons : List Neuron) (st : ℤ)
    (curr : Option ℝ) (output : List ℝ) (h : output ≠ []) :
    SpikeSinkConvolution.on_update neurons st curr output
      = some (output.headD 0, output.tail ++ [1])
  ∧ (output.tail ++ [(1 : ℝ)]).length = output.length
  ∧ (output.tail ++ [(1 : ℝ)]).sum = output.sum - output.headD 0 + 1 := by
  match output with
  | [] => exact absurd rfl h
  | x :: rest =>
    refine ⟨rfl, by simp, ?_⟩
    simp [SpikeSinkConvolution.on_update]

/-- Witness for the convolution claim at the concrete buffer `[2]`. -/
theorem convolution_buffer_fifo_witness :
    SpikeSinkConvolution.on_update [] 0 none [2] = some (2, [1])
  ∧ ([(1 : ℝ)]).length = ([(2 : ℝ)]).length
  ∧ ([(1 : ℝ)]).sum = ([(2 : ℝ)]).sum - 2 + 1 := by
  have h := convolution_buffer_fifo [] 0 none [2] (List.cons_ne_nil 2 [])
  refine ⟨by simpa using h.1, rfl, by norm_num⟩

/-- Claim C6: the Constant-Rate source returns an absent interval on absent or
nonpositive input, and the input value itself on positive input, for every
neuron id and neuron count. -/
theorem constant_rate_source_spec (v : ℤ) (i n : ℕ) :
    SpikeSourceConstantRate.on_update none i n = none
  ∧ (v ≤ 0 → SpikeSourceConstantRate.on_update (some v) i n = none)
  ∧ (0 < v → SpikeSourceConstantRate.on_update (some v) i n = some v) := by
  refine ⟨rfl, fun h => ?_, fun h => ?_⟩
  · simp [SpikeSourceConstantRate.on_update, h]
  · simp [SpikeSourceConstantRate.on_update, not_le.mpr h]

/-- Witness for the Constant-Rate claim at the inputs `-3` and `7`. -/
theorem constant_rate_source_spec_witness :
    ((-3 : ℤ) ≤ 0 ∧ SpikeSourceConstantRate.on_update (some (-3)) 2 5 = none)
  ∧ ((0 : ℤ) < 7 ∧ SpikeSourceConstantRate.on_update (some 7) 2 5 = some 7) :=
  ⟨⟨by decide, (constant_rate_source_spec (-3) 2 5).2.1 (by decide)⟩,
   ⟨by decide, (constant_rate_source_spec 7 2 5).2.2 (by decide)⟩⟩

/-- Claim C7: the Threshold-Count source fires neuron `i` at the fixed 1000 ms
interval exactly when `i` is below the input value, and returns an absent
interval for every neuron when the input is absent. -/
theorem threshold_count_source_spec (v : ℤ) (i n : ℕ) (hi : i < n) :
    (SpikeSourceNumNeurons.on_update (some v) i n
        = if (i : ℤ) < v then some 1000 else none)
  ∧ SpikeSourceNumNeurons.on_update none i n = none := by
  constructor
  · simp [SpikeSourceNumNeurons.on_update, Int.lt_iff_add_one_le]
  · simp [SpikeSourceNumNeurons.on_update]

/-- Witness for the Threshold-Count claim with 5 neurons and input 4: neuron 2
fires at 1000 ms, neuron 4 does not, and absent input disables neuron 0. -/
theorem threshold_count_source_spec_witness :
    (2 < 5 ∧ SpikeSourceNumNeurons.on_update (some 4) 2 5 = some 1000)
  ∧ (4 < 5 ∧ SpikeSourceNumNeurons.on_update (some 4) 4 5 = none)
  ∧ SpikeSourceNumNeurons.on_update none 0 5 = none := by
  refine ⟨⟨by decide, ?_⟩, ⟨by decide, ?_⟩, ?_⟩
  · have h := (threshold_count_source_spec 4 2 5 (by decide)).1
    simpa using h
  · have h := (threshold_count_source_spec 4 4 5 (by decide)).1
    simpa using h
  · exact (threshold_count_source_spec 4 0 5 (by decide)).2

/-- Claim C8: construction of the Poisson-rate conductor never creates or
starts the background worker; it registers the start-resume callback exactly
once, and each invocation of that callback creates and starts the worker
process exactly once. -/
theorem conductor_worker_start_spec (interface_id : ℕ) :
    (init_effects interface_id).count Effect.create_worker_process = 0
  ∧ (init_effects interface_id).count Effect.start_worker_process = 0
  ∧ (init_effects interface_id).count Effect.add_start_resume_callback = 1
  ∧ (poisson_rate_control_callback_effects interface_id).count
      Effect.create_worker_process = 1
  ∧ (poisson_rate_control_callback_effects interface_id).count
      Effect.start_worker_process = 1 := by
  refine ⟨?_, ?_, ?_, ?_, ?_⟩ <;>
    simp [init_effects, poisson_rate_control_callback_effects, List.count_cons]

/-- Claim C9: `k` sequential constructions assign the identifiers
`c, c + 1, …, c + k - 1`: pairwise distinct, strictly increasing, with
pairwise-distinct derived control ports `30000 + interface_id`; the counter
ends at `c + k`, so every identifier a later construction could receive
exceeds all `k` assigned ones (identifiers are never reused). -/
theorem interface_identity_spec (k c : ℕ) :
    ((mk_interfaces k c).1.map InterfaceState.interface_id) = List.range' c k
  ∧ ((mk_interfaces k c).1.map InterfaceState.interface_id).Pairwise (· < ·)
  ∧ ((mk_interfaces k c).1.map InterfaceState.poisson_rate_control_port).Nodup
  ∧ (mk_interfaces k c).2 = c + k
  ∧ (∀ s ∈ (mk_interfaces k c).1,
      s.poisson_rate_control_port = 30000 + s.interface_id)
  ∧ (∀ x ∈ (mk_interfaces k c).1.map InterfaceState.interface_id,
      x < (mk_interfaces k c).2) := by
  refine ⟨mk_interfaces_ids k c, ?_, ?_, mk_interfaces_counter k c,
    mk_interfaces_port_eq k c, ?_⟩
  · rw [mk_interfaces_ids]
    exact List.pairwise_lt_range' c k
  · rw [mk_interfaces_ports]
    exact List.nodup_range' (30000 + c) k
  · intro x hx
    rw [mk_interfaces_ids] at hx
    rw [mk_interfaces_counter]
    have := List.mem_range'_1.1 hx
    omega

/-- Witness for the interface-identity claim at `k = 3`, `c = 0`: the second
constructed instance has identifier 1 and port 30001 = 30000 + 1, and its
identifier is below the final counter value. -/
theorem interface_identity_spec_witness :
    ((⟨1, 1, 30001⟩ : InterfaceState) ∈ (mk_interfaces 3 0).1)
  ∧ (⟨1, 1, 30001⟩ : InterfaceState).poisson_rate_control_port
      = 30000 + (⟨1, 1, 30001⟩ : InterfaceState).interface_id
  ∧ (1 ∈ (mk_interfaces 3 0).1.map InterfaceState.interface_id)
  ∧ 1 < (mk_interfaces 3 0).2 :=
  ⟨by decide,
   (interface_identity_spec 3 0).2.2.2.2.1 ⟨1, 1, 30001⟩ (by decide),
   by decide,
   (interface_identity_spec 3 0).2.2.2.2.2 1 (by decide)⟩

/-- Claim C10: the built-in sinks `SpikeSinkSpikesPerWindow.on_spike` and
`SpikeSinkConvolution.on_spike` return `None`, so under the engine contract
(the policy's `on_spike` return value becomes the new current output) a spike
event replaces the current output with the absent value for these policies. -/
theorem sink_on_spike_returns_none (t : ℤ) (i : ℕ) (c : Option ℚ)
    (c' : Option ℝ) (output : List ℝ) (s : SinkEngineState ℚ)
    (s' : SinkEngineState ℝ) :
    SpikeSinkSpikesPerWindow.on_spike t i c = none
  ∧ (SpikeSinkConvolution.on_spike t i c' output).2 = none
  ∧ (sink_on_spike_event SpikeSinkSpikesPerWindow.on_spike s t i).curr_ros_value
      = none
  ∧ (sink_on_spike_event
      (fun a b cv => (SpikeSinkConvolution.on_spike a b cv output).2) s' t i).curr_ros_value
      = none :=
  ⟨rfl, rfl, rfl, rfl⟩

/-- Claim C1 (counterexample): the conductor's channel is a
`multiprocessing.Queue`, not a most-recent-value slot.  After writing 1 and
then 2 with no intervening read, the clock-loop read returns the stale value
1, not the later write 2, and the backlog `[2]` remains queued. -/
theorem channel_not_most_recent_value :
    (run_ros_node_step (incoming_ros_poisson_rate_callback
        (incoming_ros_poisson_rate_callback ([] : List ℤ) 1) 2)).1 = some 1
  ∧ ((some 1 : Option ℤ) ≠ some 2)
  ∧ (run_ros_node_step (incoming_ros_poisson_rate_callback
        (incoming_ros_poisson_rate_callback ([] : List ℤ) 1) 2)).2 = [2] := by
  decide

/-- Claim C1 (amended): the channel is a growing FIFO queue.  A write followed
by a read with nothing previously pending returns the written value; a read
with no pending write forwards nothing; in general a read takes the oldest
pending value and leaves the rest queued, so after two writes the reads
deliver them oldest-first — a later write never overwrites an unread earlier
value. -/
theorem channel_fifo_semantics (α : Type) (v w : α) (q : List α) :
    (run_ros_node_step (incoming_ros_poisson_rate_callback ([] : List α) v)).1
      = some v
  ∧ (run_ros_node_step ([] : List α)).1 = none
  ∧ (run_ros_node_step q).1 = q.head?
  ∧ (run_ros_node_step q).2 = q.tail
  ∧ (run_ros_node_step (incoming_ros_poisson_rate_callback
        (incoming_ros_poisson_rate_callback ([] : List α) v) w)).1 = some v
  ∧ (run_ros_node_step ((run_ros_node_step (incoming_ros_poisson_rate_callback
        (incoming_ros_poisson_rate_callback ([] : List α) v) w)).2)).1 = some w := by
  refine ⟨rfl, rfl, ?_, ?_, rfl, rfl⟩ <;> cases q <;> rfl

/-- Claim C2 (counterexample): the Poisson source does not draw with
rate = input value.  The code calls `random.expovariate(1.0 / lambd)`.  At the
uniform sample `u = 1 - exp (-1)` with input 20, the code's draw is 20 (the
inverse CDF of the rate-`1/20`, mean-20 exponential), whereas a rate-20 draw
`expovariate 20` at the same sample is `int(1/20) = 0`; a rate-20 exponential
(mean `1/20`) is also incompatible with the claimed sample mean of 20. -/
theorem poisson_rate_mismatch :
    SpikeSourcePoisson.on_update (some 20) 0 1 (1 - Real.exp (-1)) = some 20
  ∧ pyInt (expovariate 20 (1 - Real.exp (-1))) = 0
  ∧ ((20 : ℤ) ≠ 0) := by
  have hlog : Real.log (1 - (1 - Real.exp (-1))) = -1 := by
    rw [show (1 : ℝ) - (1 - Real.exp (-1)) = Real.exp (-1) by ring, Real.log_exp]
  have h1 : expovariate (1 / 20) (1 - Real.exp (-1)) = 20 := by
    unfold expovariate
    rw [hlog]
    norm_num
  have h2 : expovariate 20 (1 - Real.exp (-1)) = 1 / 20 := by
    unfold expovariate
    rw [hlog]
    norm_num
  refine ⟨?_, ?_, by decide⟩
  · simp only [SpikeSourcePoisson.on_update]
    rw [if_neg (by norm_num), h1]
    unfold pyInt
    rw [if_pos (by norm_num)]
    norm_num
  · rw [h2]
    unfold pyInt
    rw [if_pos (by norm_num)]
    rw [Int.floor_eq_zero_iff]
    constructor <;> norm_num

/-- Claim C2 (amended): the Poisson source returns an absent interval on
absent or nonpositive input; on input `v > 0` it returns
`int(expovariate (1/v) u)`, a draw from the exponential distribution with
rate `1/v` and mean `v` — its pre-truncation CDF is `1 - exp (-x / v)` and its
mean over the uniform sample is `v` (= 20 for `v = 20`, which the sample mean
over 10000 draws approximates by the law of large numbers). -/
theorem poisson_source_spec (v u : ℝ) (i n : ℕ) :
    SpikeSourcePoisson.on_update none i n u = none
  ∧ (v ≤ 0 → SpikeSourcePoisson.on_update (some v) i n u = none)
  ∧ (0 < v → SpikeSourcePoisson.on_update (some v) i n u
      = some (pyInt (expovariate (1 / v) u)))
  ∧ (0 < v → u < 1 → ∀ x : ℝ,
      (expovariate (1 / v) u ≤ x ↔ u ≤ 1 - Real.exp (-x / v)))
  ∧ (0 < v → ∫ t in (0 : ℝ)..1, expovariate (1 / v) t = v) :=
  ⟨rfl,
   fun h => by simp [SpikeSourcePoisson.on_update, h],
   fun h => by simp [SpikeSourcePoisson.on_update, not_le.mpr h],
   fun hv hu x => expovariate_cdf v u x hv hu,
   fun hv => expovariate_mean v hv⟩

/-- Witness for the amended Poisson claim at inputs `-2` and `20` with uniform
sample `1/2`. -/
theorem poisson_source_spec_witness :
    ((-2 : ℝ) ≤ 0 ∧ SpikeSourcePoisson.on_update (some (-2)) 0 1 (1 / 2) = none)
  ∧ ((0 : ℝ) < 20 ∧ (1 / 2 : ℝ) < 1
      ∧ (expovariate (1 / 20) (1 / 2 : ℝ) ≤ 20
          ↔ (1 / 2 : ℝ) ≤ 1 - Real.exp (-(20 : ℝ) / 20)))
  ∧ (∫ t in (0 : ℝ)..1, expovariate (1 / 20) t = 20) :=
  ⟨⟨by norm_num, (poisson_source_spec (-2) (1 / 2) 0 1).2.1 (by norm_num)⟩,
   ⟨by norm_num, by norm_num,
    (poisson_source_spec 20 (1 / 2) 0 1).2.2.2.1 (by norm_num) (by norm_num) 20⟩,
   (poisson_source_spec 20 0 0 1).2.2.2.2 (by norm_num)⟩

end RosSpinnakerInterface
